import Mathlib

/-!
Verification of the auto-focus-cloud license service.

This file gives a shallow embedding, in Lean, of the core components of the
auto-focus-cloud repository (a Go program): semantic-version major-component
parsing (internal/version), the license validation HTTP handler, the
fixed-window rate limiter (internal/ratelimit), the storage backends
(Memory / File / SQLite), the HMAC-SHA256 response signing, and the Stripe
checkout provisioning flow.  Pure Go functions become Lean functions; Go maps
become association lists (Go map iteration order is unspecified, so the list
order stands for one admissible iteration order); effects (UUID generation,
clock, SMTP) become explicit parameters.  Machine integers are modelled as
Int/Nat with explicit 2^w bounds where they matter.
-/

namespace AutoFocus

/-! ## Go string and integer primitives used by internal/version -/

/-- Go strings.Split with a one-character separator: splits the character list
at every occurrence of the separator.  Split of the empty string yields one
empty field, and a trailing separator yields a trailing empty field, exactly
as in Go. -/
def splitOnChar (sep : Char) : List Char → List (List Char)
  | [] => [[]]
  | c :: cs =>
    if c = sep then [] :: splitOnChar sep cs
    else
      match splitOnChar sep cs with
      | [] => [[c]]
      | p :: ps => (c :: p) :: ps

/-- Decimal digit test on a character, by code point. -/
def isDigitChar (c : Char) : Bool := 48 ≤ c.toNat && c.toNat ≤ 57

/-- Accumulating decimal reader: consumes the whole list, failing on the first
non-digit character. -/
def digitsValAux : List Char → Nat → Option Nat
  | [], acc => some acc
  | c :: cs, acc =>
    if isDigitChar c then digitsValAux cs (acc * 10 + (c.toNat - 48)) else none

/-- Value of a non-empty all-digit character list, none otherwise. -/
def digitsVal : List Char → Option Nat
  | [] => none
  | cs => digitsValAux cs 0

/-- Largest value of Go's 64-bit int type. -/
def int64Max : Int := 2 ^ 63 - 1

/-- Go strconv.Atoi (equivalently ParseInt base 10 into a 64-bit int): an
optional single leading sign followed by at least one digit, with the result
required to fit the 64-bit signed range; every other input is an error,
modelled as none. -/
def goAtoi (s : List Char) : Option Int :=
  match s with
  | [] => none
  | c :: rest =>
    if c = '+' then
      (digitsVal rest).bind fun n =>
        if (n : Int) ≤ int64Max then some (n : Int) else none
    else if c = '-' then
      (digitsVal rest).bind fun n =>
        if (n : Int) ≤ 2 ^ 63 then some (-(n : Int)) else none
    else
      (digitsVal s).bind fun n =>
        if (n : Int) ≤ int64Max then some (n : Int) else none

/-! ## internal/version (src/unnamed/part_003) -/

/-- Go version.ExtractMajorVersion: reject the empty string, split on dots,
parse the first field with strconv.Atoi, reject negative majors. -/
def ExtractMajorVersion (version : String) : Except String Int :=
  if version = "" then .error "empty version string"
  else
    let parts := splitOnChar '.' version.data
    if parts.length < 1 then .error "invalid version format"
    else
      match goAtoi (parts.headD []) with
      | none => .error "invalid major version"
      | some major =>
        if major < 0 then .error "major version cannot be negative"
        else .ok major

/-- Go version.IsCompatible: a license version is compatible with a requested
app version exactly when the two major components are equal; a parse failure
on either side is an error. -/
def IsCompatible (licenseVersion requestedVersion : String) : Except String Bool :=
  match ExtractMajorVersion licenseVersion with
  | .error e => .error ("invalid license version: " ++ e)
  | .ok licenseMajor =>
    match ExtractMajorVersion requestedVersion with
    | .error e => .error ("invalid app version: " ++ e)
    | .ok requestedMajor => .ok (licenseMajor = requestedMajor)

/-- Text of a version string before its first dot (the whole string when it
has no dot), as a character list. -/
def leadingComponent (s : String) : List Char := (splitOnChar '.' s.data).headD []

/-! ## Version-aware validation handler (src/handlers/license.go) -/

namespace V0

/-- License record of the early models package (src/unnamed/part_012): key,
recorded semantic version, and status string. -/
structure License where
  key : String
  version : String
  status : String
  deriving DecidableEq, Repr

/-- Customer record of the early models package: id, email and owned
licenses. -/
structure Customer where
  id : String
  email : String
  licenses : List License
  deriving DecidableEq, Repr

/-- Status string constant models.StatusActive. -/
def statusActive : String := "active"

/-- Go storage.MemoryStorage.FindCustomerByLicenseKey: scan the customers (in
map iteration order, modelled by the list order) and return the first one
holding a license with the given key. -/
def FindCustomerByLicenseKey (db : List Customer) (key : String) : Option Customer :=
  db.find? fun c => c.licenses.any fun l => l.key = key

/-- Go handlers.findLicenseInCustomer: first license of the customer with the
given key. -/
def findLicenseInCustomer (c : Customer) (key : String) : Option License :=
  c.licenses.find? fun l => l.key = key

/-- Body of a validation request. -/
structure LicenseRequest where
  licenseKey : String
  appVersion : String
  deriving DecidableEq, Repr

/-- Observable outcome of the handler: an HTTP error response, a validation
verdict, or the nil-pointer dereference that Go would hit if
findLicenseInCustomer returned nil (impossible when the customer came from
FindCustomerByLicenseKey). -/
inductive HttpOutcome where
  | errorResp (status : Nat) (message : String)
  | verdict (valid : Bool) (message : String)
  | crash
  deriving DecidableEq, Repr

/-- Go handlers.Server.ValidateLicense (version-aware revision): request
validation, lookup by license key, status gate, then the major-version
compatibility gate from internal/version. -/
def ValidateLicense (db : List Customer) (req : LicenseRequest) : HttpOutcome :=
  if req.licenseKey = "" then .errorResp 400 "Invalid license"
  else
    match FindCustomerByLicenseKey db req.licenseKey with
    | none => .verdict false "License not found"
    | some customer =>
      match findLicenseInCustomer customer req.licenseKey with
      | none => .crash
      | some license =>
        if license.status ≠ statusActive then .verdict false "License not active"
        else
          match IsCompatible license.version req.appVersion with
          | .error _ => .verdict false "Invalid version format"
          | .ok compatible =>
            if !compatible then .verdict false "License not valid for this app version"
            else .verdict true "License valid"

end V0

/-! ## Lemmas about major-version extraction -/

theorem splitOnChar_ne_nil (sep : Char) (l : List Char) : splitOnChar sep l ≠ [] := by
  cases l with
  | nil => simp [splitOnChar]
  | cons c cs =>
    simp only [splitOnChar]
    split
    · simp
    · split <;> simp

/-- ExtractMajorVersion on a non-empty string is determined by the text before
the first dot. -/
theorem extractMajorVersion_eq (s : String) (hs : s ≠ "") :
    ExtractMajorVersion s =
      match goAtoi (leadingComponent s) with
      | none => Except.error "invalid major version"
      | some major =>
        if major < 0 then Except.error "major version cannot be negative"
        else Except.ok major := by
  unfold ExtractMajorVersion
  rw [if_neg hs]
  have hne := splitOnChar_ne_nil '.' s.data
  have hlen : ¬ (splitOnChar '.' s.data).length < 1 := by
    have : 0 < (splitOnChar '.' s.data).length := List.length_pos.mpr hne
    omega
  rw [if_neg hlen]
  rfl

/-- C10: major-version extraction inspects only the text before the first dot:
any non-empty version string whose leading dot-separated component parses
(strconv.Atoi) as a non-negative integer is accepted with that value, whatever
follows, so "1", "01.2" and "1.banana" all yield major 1 and "1.banana" is
compatible with "1.0.0"; the empty string, a non-numeric leading component and
a negative leading component are errors. -/
theorem extractMajor_leading_component_only :
    (∀ s t : String, s ≠ "" → t ≠ "" → leadingComponent s = leadingComponent t →
      ExtractMajorVersion s = ExtractMajorVersion t) ∧
    (∀ (s : String) (m : Int), s ≠ "" → goAtoi (leadingComponent s) = some m → 0 ≤ m →
      ExtractMajorVersion s = .ok m) ∧
    ExtractMajorVersion "1" = .ok 1 ∧
    ExtractMajorVersion "01.2" = .ok 1 ∧
    ExtractMajorVersion "1.banana" = .ok 1 ∧
    IsCompatible "1.banana" "1.0.0" = .ok true ∧
    ExtractMajorVersion "" = .error "empty version string" ∧
    ExtractMajorVersion "x.2" = .error "invalid major version" ∧
    ExtractMajorVersion "-1.0.0" = .error "major version cannot be negative" := by
  refine ⟨?_, ?_, rfl, rfl, rfl, rfl, rfl, rfl, rfl⟩
  · intro s t hs ht hst
    rw [extractMajorVersion_eq s hs, extractMajorVersion_eq t ht, hst]
  · intro s m hs hm hm0
    rw [extractMajorVersion_eq s hs, hm]
    simp only [if_neg (by omega : ¬ m < 0)]

/-- Witness for C10 at concrete inputs: "1.banana" and "1.pineapple" share the
leading component so extraction agrees, and "7.x.y" is accepted with major 7. -/
theorem extractMajor_leading_component_only_witness :
    ExtractMajorVersion "1.banana" = ExtractMajorVersion "1.pineapple" ∧
    ExtractMajorVersion "7.x.y" = .ok 7 := by
  refine ⟨?_, ?_⟩
  · exact extractMajor_leading_component_only.1 "1.banana" "1.pineapple"
      (by decide) (by decide) rfl
  · exact extractMajor_leading_component_only.2.1 "7.x.y" 7 (by decide) rfl (by decide)

namespace V0

/-- Helper: on a non-empty key whose lookup yields an active stored license,
ValidateLicense reduces to the version-compatibility gate. -/
theorem validateLicense_active (db : List Customer) (cust : Customer) (lic : License)
    (key v : String) (hkey : key ≠ "")
    (hfind : FindCustomerByLicenseKey db key = some cust)
    (hlic : findLicenseInCustomer cust key = some lic)
    (hactive : lic.status = statusActive) :
    ValidateLicense db ⟨key, v⟩ =
      match IsCompatible lic.version v with
      | .error _ => .verdict false "Invalid version format"
      | .ok compatible =>
        if !compatible then .verdict false "License not valid for this app version"
        else .verdict true "License valid" := by
  unfold ValidateLicense
  rw [if_neg hkey, hfind]
  dsimp only
  rw [hlic]
  dsimp only
  rw [hactive]
  simp

/-- C1: for a stored license with status active and recorded major version 1,
the version-aware ValidateLicense handler answers a positive verdict for app
versions with major component 1 ("1.0.0", "1.9.9"), a negative verdict for a
different major ("2.0.0"), and the invalid-version-format message — distinct
from the not-active and not-found messages — for malformed app versions
"invalid", "" and "-1.0.0". -/
theorem validateLicense_major1 (db : List Customer) (cust : Customer) (lic : License)
    (key : String) (hkey : key ≠ "")
    (hfind : FindCustomerByLicenseKey db key = some cust)
    (hlic : findLicenseInCustomer cust key = some lic)
    (hactive : lic.status = statusActive)
    (hmajor : ExtractMajorVersion lic.version = .ok 1) :
    ValidateLicense db ⟨key, "1.0.0"⟩ = .verdict true "License valid" ∧
    ValidateLicense db ⟨key, "1.9.9"⟩ = .verdict true "License valid" ∧
    ValidateLicense db ⟨key, "2.0.0"⟩ = .verdict false "License not valid for this app version" ∧
    ValidateLicense db ⟨key, "invalid"⟩ = .verdict false "Invalid version format" ∧
    ValidateLicense db ⟨key, ""⟩ = .verdict false "Invalid version format" ∧
    ValidateLicense db ⟨key, "-1.0.0"⟩ = .verdict false "Invalid version format" ∧
    "Invalid version format" ≠ "License not active" ∧
    "Invalid version format" ≠ "License not found" := by
  have step : ∀ v : String, ValidateLicense db ⟨key, v⟩ =
      match IsCompatible lic.version v with
      | .error _ => .verdict false "Invalid version format"
      | .ok compatible =>
        if !compatible then .verdict false "License not valid for this app version"
        else .verdict true "License valid" :=
    fun v => validateLicense_active db cust lic key v hkey hfind hlic hactive
  have hcomp : ∀ v : String, IsCompatible lic.version v =
      match ExtractMajorVersion v with
      | .error e => .error ("invalid app version: " ++ e)
      | .ok requestedMajor => .ok (decide ((1 : Int) = requestedMajor)) := by
    intro v
    unfold IsCompatible
    rw [hmajor]
  refine ⟨?_, ?_, ?_, ?_, ?_, ?_, by decide, by decide⟩ <;>
    rw [step, hcomp] <;> rfl

/-- Witness for C1: a concrete one-customer store with an active "1.0.0"
license under key "AFP-1". -/
theorem validateLicense_major1_witness :
    ValidateLicense [⟨"1", "a@example.com", [⟨"AFP-1", "1.0.0", "active"⟩]⟩]
        ⟨"AFP-1", "1.9.9"⟩ = .verdict true "License valid" ∧
    ValidateLicense [⟨"1", "a@example.com", [⟨"AFP-1", "1.0.0", "active"⟩]⟩]
        ⟨"AFP-1", "2.0.0"⟩ = .verdict false "License not valid for this app version" ∧
    ValidateLicense [⟨"1", "a@example.com", [⟨"AFP-1", "1.0.0", "active"⟩]⟩]
        ⟨"AFP-1", "invalid"⟩ = .verdict false "Invalid version format" := by
  have h := validateLicense_major1
    [⟨"1", "a@example.com", [⟨"AFP-1", "1.0.0", "active"⟩]⟩]
    ⟨"1", "a@example.com", [⟨"AFP-1", "1.0.0", "active"⟩]⟩
    ⟨"AFP-1", "1.0.0", "active"⟩ "AFP-1" (by decide) rfl rfl rfl rfl
  exact ⟨h.2.1, h.2.2.1, h.2.2.2.1⟩

end V0

/-! ## internal/ratelimit (src/internal/ratelimit/ratelimit.go)

Time is modelled in nanoseconds as Int (Go time.Duration and time.Sub are
64-bit nanosecond counts; no value in these proofs approaches the bounds).
The requests map is an association list keyed by remote address; Allow's
entire check-and-update runs under one mutex in Go, so it is modelled as one
atomic state transition taking the current clock reading as a parameter. -/

namespace Ratelimit

/-- Per-key window record: request count and window start time. -/
structure WindowData where
  count : Int
  windowStart : Int
  deriving DecidableEq, Repr

/-- Go ratelimit.FixedWindowLimitter (source spelling kept). -/
structure FixedWindowLimitter where
  maxRequests : Int
  window : Int
  requests : List (String × WindowData)
  deriving DecidableEq, Repr

/-- Map read rl.requests[addr]: nil when the key is absent. -/
def lookupWindow : List (String × WindowData) → String → Option WindowData
  | [], _ => none
  | (k', wd) :: rest, k => if k' = k then some wd else lookupWindow rest k

/-- Map write rl.requests[addr] = wd: replace the existing entry or append. -/
def insertWindow : List (String × WindowData) → String → WindowData → List (String × WindowData)
  | [], k, wd => [(k, wd)]
  | (k', wd') :: rest, k, wd =>
    if k' = k then (k, wd) :: rest else (k', wd') :: insertWindow rest k wd

/-- Go ratelimit.New. -/
def New (maxRequests : Int) (interval : Int) : FixedWindowLimitter :=
  ⟨maxRequests, interval, []⟩

/-- Branch taken by Allow when there is no record for the key or the record's
window has expired: deny everything when the configured limit is zero,
otherwise restart the window with count 1 and allow. -/
def allowNewWindow (rl : FixedWindowLimitter) (addr : String) (now : Int) :
    Bool × FixedWindowLimitter :=
  if rl.maxRequests = 0 then (false, rl)
  else (true, { rl with requests := insertWindow rl.requests addr ⟨1, now⟩ })

/-- Go FixedWindowLimitter.Allow: the whole critical section, returning the
verdict together with the successor state. -/
def Allow (rl : FixedWindowLimitter) (addr : String) (now : Int) :
    Bool × FixedWindowLimitter :=
  match lookupWindow rl.requests addr with
  | none => allowNewWindow rl addr now
  | some wd =>
    if rl.window < now - wd.windowStart then allowNewWindow rl addr now
    else if rl.maxRequests ≤ wd.count then (false, rl)
    else (true, { rl with requests := insertWindow rl.requests addr ⟨wd.count + 1, wd.windowStart⟩ })

/-- Sequential run of Allow over a trace of (key, time) events, collecting the
verdicts and the final state. -/
def processAll (rl : FixedWindowLimitter) : List (String × Int) → List Bool × FixedWindowLimitter
  | [] => ([], rl)
  | (k, t) :: tr =>
    let r := Allow rl k t
    let rest := processAll r.2 tr
    (r.1 :: rest.1, rest.2)

/-- C7: a limiter configured with limit 0 denies every call for every key at
every time, and never even records a window: zero is a fully closed
configuration, not an unlimited one. -/
theorem allow_zero_limit_denies_all (W : Int) (tr : List (String × Int)) :
    (processAll (New 0 W) tr).1 = tr.map (fun _ => false) ∧
    (processAll (New 0 W) tr).2 = New 0 W := by
  induction tr with
  | nil => exact ⟨rfl, rfl⟩
  | cons e tr ih =>
    obtain ⟨k, t⟩ := e
    have h : Allow (New 0 W) k t = (false, New 0 W) := rfl
    simp only [processAll, h, List.map_cons]
    exact ⟨by rw [ih.1], ih.2⟩

/-- Local description of one Allow call: verdict and successor record of the
addressed key, as a function of the configuration, the key's current record
and the clock. -/
def allowStep (maxR W : Int) (wd : Option WindowData) (now : Int) : Bool × Option WindowData :=
  match wd with
  | none => if maxR = 0 then (false, none) else (true, some ⟨1, now⟩)
  | some w =>
    if W < now - w.windowStart then
      if maxR = 0 then (false, some w) else (true, some ⟨1, now⟩)
    else if maxR ≤ w.count then (false, some w)
    else (true, some ⟨w.count + 1, w.windowStart⟩)

theorem lookup_insert (reqs : List (String × WindowData)) (k : String) (wd : WindowData)
    (j : String) :
    lookupWindow (insertWindow reqs k wd) j =
      if k = j then some wd else lookupWindow reqs j := by
  induction reqs with
  | nil =>
    by_cases h : k = j <;> simp [insertWindow, lookupWindow, h]
  | cons e rest ih =>
    obtain ⟨k', wd'⟩ := e
    by_cases h1 : k' = k
    · subst h1
      by_cases h2 : k' = j <;> simp [insertWindow, lookupWindow, h2]
    · by_cases h2 : k' = j
      · subst h2
        have : ¬ k = k' := fun h => h1 h.symm
        simp [insertWindow, lookupWindow, h1, this]
      · simp [insertWindow, lookupWindow, h1, h2, ih]

theorem allow_fst (rl : FixedWindowLimitter) (addr : String) (now : Int) :
    (Allow rl addr now).1 =
      (allowStep rl.maxRequests rl.window (lookupWindow rl.requests addr) now).1 := by
  cases h : lookupWindow rl.requests addr with
  | none =>
    by_cases hz : rl.maxRequests = 0 <;>
      simp [Allow, allowNewWindow, allowStep, h, hz]
  | some w =>
    by_cases hw : rl.window < now - w.windowStart
    · by_cases hz : rl.maxRequests = 0 <;>
        simp [Allow, allowNewWindow, allowStep, h, hw, hz]
    · by_cases hc : rl.maxRequests ≤ w.count <;>
        simp [Allow, allowNewWindow, allowStep, h, hw, hc]

theorem allow_maxRequests (rl : FixedWindowLimitter) (addr : String) (now : Int) :
    (Allow rl addr now).2.maxRequests = rl.maxRequests := by
  cases h : lookupWindow rl.requests addr with
  | none =>
    by_cases hz : rl.maxRequests = 0 <;>
      simp [Allow, allowNewWindow, h, hz]
  | some w =>
    by_cases hw : rl.window < now - w.windowStart
    · by_cases hz : rl.maxRequests = 0 <;>
        simp [Allow, allowNewWindow, h, hw, hz]
    · by_cases hc : rl.maxRequests ≤ w.count <;>
        simp [Allow, allowNewWindow, h, hw, hc]

theorem allow_window (rl : FixedWindowLimitter) (addr : String) (now : Int) :
    (Allow rl addr now).2.window = rl.window := by
  cases h : lookupWindow rl.requests addr with
  | none =>
    by_cases hz : rl.maxRequests = 0 <;>
      simp [Allow, allowNewWindow, h, hz]
  | some w =>
    by_cases hw : rl.window < now - w.windowStart
    · by_cases hz : rl.maxRequests = 0 <;>
        simp [Allow, allowNewWindow, h, hw, hz]
    · by_cases hc : rl.maxRequests ≤ w.count <;>
        simp [Allow, allowNewWindow, h, hw, hc]

theorem allow_lookup (rl : FixedWindowLimitter) (addr : String) (now : Int) (j : String) :
    lookupWindow (Allow rl addr now).2.requests j =
      if addr = j then (allowStep rl.maxRequests rl.window (lookupWindow rl.requests addr) now).2
      else lookupWindow rl.requests j := by
  cases h : lookupWindow rl.requests addr with
  | none =>
    by_cases hz : rl.maxRequests = 0
    · by_cases hj : addr = j
      · subst hj; simp [Allow, allowNewWindow, allowStep, h, hz]
      · simp [Allow, allowNewWindow, allowStep, h, hz, hj]
    · simp [Allow, allowNewWindow, allowStep, h, hz, lookup_insert]
  | some w =>
    by_cases hw : rl.window < now - w.windowStart
    · by_cases hz : rl.maxRequests = 0
      · by_cases hj : addr = j
        · subst hj; simp [Allow, allowNewWindow, allowStep, h, hw, hz]
        · simp [Allow, allowNewWindow, allowStep, h, hw, hz, hj]
      · simp [Allow, allowNewWindow, allowStep, h, hw, hz, lookup_insert]
    · by_cases hc : rl.maxRequests ≤ w.count
      · by_cases hj : addr = j
        · subst hj; simp [Allow, allowNewWindow, allowStep, h, hw, hc]
        · simp [Allow, allowNewWindow, allowStep, h, hw, hc, hj]
      · simp [Allow, allowNewWindow, allowStep, h, hw, hc, lookup_insert]

/-- Times of the events of a trace addressed to one key, in order. -/
def keyTimes (k : String) (tr : List (String × Int)) : List Int :=
  (tr.filter fun e => e.1 = k).map (·.2)

/-- Sub-list of the verdicts at the positions of a trace addressed to the
given key. -/
def answersFor (k : String) : List (String × Int) → List Bool → List Bool
  | [], _ => []
  | _ :: _, [] => []
  | (k', _) :: tr, b :: bs =>
    if k' = k then b :: answersFor k tr bs else answersFor k tr bs

/-- Sub-list of the verdicts at the positions of a trace addressed to any
other key. -/
def answersNotFor (k : String) : List (String × Int) → List Bool → List Bool
  | [], _ => []
  | _ :: _, [] => []
  | (k', _) :: tr, b :: bs =>
    if k' = k then answersNotFor k tr bs else b :: answersNotFor k tr bs

/-- Trace with every event for the given key removed. -/
def eraseKey (k : String) (tr : List (String × Int)) : List (String × Int) :=
  tr.filter fun e => ¬ e.1 = k

theorem keyTimes_cons (k k' : String) (t : Int) (tr : List (String × Int)) :
    keyTimes k ((k', t) :: tr) =
      if k' = k then t :: keyTimes k tr else keyTimes k tr := by
  by_cases h : k' = k <;> simp [keyTimes, h]

theorem processAll_cons (rl : FixedWindowLimitter) (k : String) (t : Int)
    (tr : List (String × Int)) :
    processAll rl ((k, t) :: tr) =
      ((Allow rl k t).1 :: (processAll (Allow rl k t).2 tr).1,
        (processAll (Allow rl k t).2 tr).2) := rfl

theorem answersFor_cons (k k' : String) (t : Int) (tr : List (String × Int))
    (b : Bool) (bs : List Bool) :
    answersFor k ((k', t) :: tr) (b :: bs) =
      if k' = k then b :: answersFor k tr bs else answersFor k tr bs := rfl

theorem answersNotFor_cons (k k' : String) (t : Int) (tr : List (String × Int))
    (b : Bool) (bs : List Bool) :
    answersNotFor k ((k', t) :: tr) (b :: bs) =
      if k' = k then answersNotFor k tr bs else b :: answersNotFor k tr bs := rfl

/-- Counting invariant: from a state whose record for key k is (c, t0) with
1 ≤ c ≤ N, and a trace whose k-events all lie within W of t0, the j-th
remaining k-event (0-based) is admitted exactly when c + j < N. -/
theorem run_inWindow (k : String) (N W : Int) (tr : List (String × Int)) :
    ∀ (rl : FixedWindowLimitter) (c t0 : Int),
      rl.maxRequests = N → rl.window = W →
      lookupWindow rl.requests k = some ⟨c, t0⟩ → 1 ≤ c → c ≤ N →
      (∀ t ∈ keyTimes k tr, t - t0 ≤ W) →
      answersFor k tr (processAll rl tr).1 =
        (List.range (keyTimes k tr).length).map
          (fun j : Nat => decide (c + (j : Int) < N)) := by
  induction tr with
  | nil =>
    intro rl c t0 _ _ _ _ _ _
    simp [keyTimes, answersFor, processAll]
  | cons e tr ih =>
    obtain ⟨k', t⟩ := e
    intro rl c t0 hmax hwin hlk hc1 hcN hts
    by_cases hk : k' = k
    · subst hk
      have hin : t - t0 ≤ W := by
        refine hts t ?_
        rw [keyTimes_cons, if_pos rfl]
        exact List.mem_cons_self t _
      have hts' : ∀ t' ∈ keyTimes k' tr, t' - t0 ≤ W := by
        intro t' ht'
        refine hts t' ?_
        rw [keyTimes_cons, if_pos rfl]
        exact List.mem_cons_of_mem t ht'
      have hnw : ¬ (W < t - t0) := by omega
      by_cases hNc : N ≤ c
      · have hfst : (Allow rl k' t).1 = false := by
          rw [allow_fst, hmax, hwin, hlk]
          simp [allowStep, hnw, hNc]
        have hlk2 : lookupWindow (Allow rl k' t).2.requests k' = some ⟨c, t0⟩ := by
          rw [allow_lookup, if_pos rfl, hmax, hwin, hlk]
          simp [allowStep, hnw, hNc]
        have htail := ih (Allow rl k' t).2 c t0
          ((allow_maxRequests rl k' t).trans hmax)
          ((allow_window rl k' t).trans hwin) hlk2 hc1 hcN hts'
        rw [processAll_cons, keyTimes_cons, if_pos rfl]
        dsimp only
        rw [answersFor_cons, if_pos rfl, hfst, htail]
        simp only [List.length_cons, List.range_succ_eq_map, List.map_cons, List.map_map]
        congr 1
        · symm
          rw [decide_eq_false_iff_not]
          push_cast
          omega
        · refine List.map_congr_left fun j _ => ?_
          simp only [Function.comp_apply]
          rw [decide_eq_decide]
          push_cast
          omega
      · have hfst : (Allow rl k' t).1 = true := by
          rw [allow_fst, hmax, hwin, hlk]
          simp [allowStep, hnw, hNc]
        have hlk2 : lookupWindow (Allow rl k' t).2.requests k' = some ⟨c + 1, t0⟩ := by
          rw [allow_lookup, if_pos rfl, hmax, hwin, hlk]
          simp [allowStep, hnw, hNc]
        have htail := ih (Allow rl k' t).2 (c + 1) t0
          ((allow_maxRequests rl k' t).trans hmax)
          ((allow_window rl k' t).trans hwin) hlk2 (by omega) (by omega) hts'
        rw [processAll_cons, keyTimes_cons, if_pos rfl]
        dsimp only
        rw [answersFor_cons, if_pos rfl, hfst, htail]
        simp only [List.length_cons, List.range_succ_eq_map, List.map_cons, List.map_map]
        congr 1
        · symm
          rw [decide_eq_true_eq]
          push_cast
          omega
        · refine List.map_congr_left fun j _ => ?_
          simp only [Function.comp_apply]
          rw [decide_eq_decide]
          push_cast
          omega
    · have hlk' : lookupWindow (Allow rl k' t).2.requests k = some ⟨c, t0⟩ := by
        rw [allow_lookup, if_neg hk]
        exact hlk
      have hts' : ∀ t' ∈ keyTimes k tr, t' - t0 ≤ W := by
        intro t' ht'
        refine hts t' ?_
        rw [keyTimes_cons, if_neg hk]
        exact ht'
      have htail := ih (Allow rl k' t).2 c t0
        ((allow_maxRequests rl k' t).trans hmax)
        ((allow_window rl k' t).trans hwin) hlk' hc1 hcN hts'
      rw [processAll_cons, keyTimes_cons, if_neg hk]
      dsimp only
      rw [answersFor_cons, if_neg hk, htail]

/-- Counting from a state with no record for key k: with limit N > 0 and all
k-events within W of the first one, the i-th k-event (0-based) is admitted
exactly when i < N. -/
theorem run_fresh (k : String) (N W : Int) (hN : 0 < N) (tr : List (String × Int)) :
    ∀ rl : FixedWindowLimitter,
      rl.maxRequests = N → rl.window = W →
      lookupWindow rl.requests k = none →
      (∀ t ∈ keyTimes k tr, t - (keyTimes k tr).headD 0 ≤ W) →
      answersFor k tr (processAll rl tr).1 =
        (List.range (keyTimes k tr).length).map
          (fun j : Nat => decide ((j : Int) < N)) := by
  induction tr with
  | nil =>
    intro rl _ _ _ _
    simp [keyTimes, answersFor, processAll]
  | cons e tr ih =>
    obtain ⟨k', t⟩ := e
    intro rl hmax hwin hlk hts
    by_cases hk : k' = k
    · subst hk
      have hN0 : ¬ (N = 0) := by omega
      have hfst : (Allow rl k' t).1 = true := by
        rw [allow_fst, hmax, hwin, hlk]
        simp [allowStep, hN0]
      have hlk2 : lookupWindow (Allow rl k' t).2.requests k' = some ⟨1, t⟩ := by
        rw [allow_lookup, if_pos rfl, hmax, hwin, hlk]
        simp [allowStep, hN0]
      have hts' : ∀ t' ∈ keyTimes k' tr, t' - t ≤ W := by
        intro t' ht'
        have := hts t' (by rw [keyTimes_cons, if_pos rfl]; exact List.mem_cons_of_mem t ht')
        rwa [keyTimes_cons, if_pos rfl, List.headD_cons] at this
      have htail := run_inWindow k' N W tr (Allow rl k' t).2 1 t
        ((allow_maxRequests rl k' t).trans hmax)
        ((allow_window rl k' t).trans hwin) hlk2 le_rfl (by omega) hts'
      rw [processAll_cons, keyTimes_cons, if_pos rfl]
      dsimp only
      rw [answersFor_cons, if_pos rfl, hfst, htail]
      simp only [List.length_cons, List.range_succ_eq_map, List.map_cons, List.map_map]
      congr 1
      · symm
        rw [decide_eq_true_eq]
        push_cast
        omega
      · refine List.map_congr_left fun j _ => ?_
        simp only [Function.comp_apply]
        rw [decide_eq_decide]
        push_cast
        omega
    · have hlk' : lookupWindow (Allow rl k' t).2.requests k = none := by
        rw [allow_lookup, if_neg hk]
        exact hlk
      have hts' : ∀ t' ∈ keyTimes k tr, t' - (keyTimes k tr).headD 0 ≤ W := by
        intro t' ht'
        have := hts t' (by rw [keyTimes_cons, if_neg hk]; exact ht')
        rwa [keyTimes_cons, if_neg hk] at this
      have htail := ih (Allow rl k' t).2
        ((allow_maxRequests rl k' t).trans hmax)
        ((allow_window rl k' t).trans hwin) hlk' hts'
      rw [processAll_cons, keyTimes_cons, if_neg hk]
      dsimp only
      rw [answersFor_cons, if_neg hk, htail]

/-- Frame property: the verdicts at positions addressed to keys other than k
coincide with the verdicts of the same trace with all k-events removed,
whenever the two starting states agree on configuration and on every record
except k's. -/
theorem run_erase_agree (k : String) (tr : List (String × Int)) :
    ∀ rl₁ rl₂ : FixedWindowLimitter,
      rl₁.maxRequests = rl₂.maxRequests → rl₁.window = rl₂.window →
      (∀ j, j ≠ k → lookupWindow rl₁.requests j = lookupWindow rl₂.requests j) →
      answersNotFor k tr (processAll rl₁ tr).1 = (processAll rl₂ (eraseKey k tr)).1 := by
  induction tr with
  | nil =>
    intro rl₁ rl₂ _ _ _
    simp [answersNotFor, processAll, eraseKey]
  | cons e tr ih =>
    obtain ⟨k', t⟩ := e
    intro rl₁ rl₂ hmax hwin hagree
    by_cases hk : k' = k
    · subst hk
      have herase : eraseKey k' ((k', t) :: tr) = eraseKey k' tr := by
        simp [eraseKey]
      rw [processAll_cons]
      dsimp only
      rw [answersNotFor_cons, if_pos rfl, herase]
      refine ih (Allow rl₁ k' t).2 rl₂
        ((allow_maxRequests rl₁ k' t).trans hmax)
        ((allow_window rl₁ k' t).trans hwin) ?_
      intro j hj
      rw [allow_lookup, if_neg (fun h => hj h.symm)]
      exact hagree j hj
    · have hstep : allowStep rl₁.maxRequests rl₁.window (lookupWindow rl₁.requests k') t =
          allowStep rl₂.maxRequests rl₂.window (lookupWindow rl₂.requests k') t := by
        rw [hmax, hwin, hagree k' hk]
      have hb : (Allow rl₁ k' t).1 = (Allow rl₂ k' t).1 := by
        rw [allow_fst, allow_fst, hstep]
      have herase : eraseKey k ((k', t) :: tr) = (k', t) :: eraseKey k tr := by
        simp [eraseKey, hk]
      rw [processAll_cons, herase, processAll_cons]
      dsimp only
      rw [answersNotFor_cons, if_neg hk, hb]
      refine congrArg _ (ih (Allow rl₁ k' t).2 (Allow rl₂ k' t).2 ?_ ?_ ?_)
      · rw [allow_maxRequests, allow_maxRequests, hmax]
      · rw [allow_window, allow_window, hwin]
      · intro j hj
        rw [allow_lookup, allow_lookup, hstep]
        by_cases hjk : k' = j
        · rw [if_pos hjk, if_pos hjk]
        · rw [if_neg hjk, if_neg hjk]
          exact hagree j hj

/-- C6: starting the limiter with limit N > 0 and window W on any event trace
whose k-events all occur within W of the first k-event, the i-th call for key
k (0-based) is admitted exactly when i < N — so the first N calls are allowed
and the (N+1)-th is denied — while the verdicts for every other key are
exactly those of the same trace with the k-events removed. -/
theorem fixedWindow_per_key_limit (N W : Int) (k : String) (tr : List (String × Int))
    (hN : 0 < N)
    (hwin : ∀ t ∈ keyTimes k tr, t - (keyTimes k tr).headD 0 ≤ W) :
    answersFor k tr (processAll (New N W) tr).1 =
      (List.range (keyTimes k tr).length).map
        (fun j : Nat => decide ((j : Int) < N)) ∧
    answersNotFor k tr (processAll (New N W) tr).1 =
      (processAll (New N W) (eraseKey k tr)).1 := by
  constructor
  · exact run_fresh k N W hN tr (New N W) rfl rfl rfl hwin
  · exact run_erase_agree k tr (New N W) (New N W) rfl rfl fun j _ => rfl

/-- Witness for C6: limit 2, window 60, interleaved trace for keys "a" and
"b": key "a" gets true, true, false; key "b" sees exactly the verdicts of the
trace without the "a"-events. -/
theorem fixedWindow_per_key_limit_witness :
    answersFor "a" [("a", 0), ("b", 1), ("a", 2), ("a", 3), ("b", 4)]
        (processAll (New 2 60) [("a", 0), ("b", 1), ("a", 2), ("a", 3), ("b", 4)]).1 =
      [true, true, false] ∧
    answersNotFor "a" [("a", 0), ("b", 1), ("a", 2), ("a", 3), ("b", 4)]
        (processAll (New 2 60) [("a", 0), ("b", 1), ("a", 2), ("a", 3), ("b", 4)]).1 =
      [true, true] := by
  have h := fixedWindow_per_key_limit 2 60 "a"
    [("a", 0), ("b", 1), ("a", 2), ("a", 3), ("b", 4)] (by decide) (by decide)
  exact ⟨h.1.trans (by decide), h.2.trans (by decide)⟩

end Ratelimit

/-! ## Go map primitives shared by the storage backends

A Go map is modelled as an association list; lookup is by key, write replaces
the existing entry or appends.  Go's map iteration order is unspecified, so
iterating code sees the entries in the (arbitrary) list order, which stands
for one admissible iteration order. -/

def lookupAssoc {α : Type} : List (String × α) → String → Option α
  | [], _ => none
  | (k', v) :: rest, k => if k' = k then some v else lookupAssoc rest k

def insertAssoc {α : Type} : List (String × α) → String → α → List (String × α)
  | [], k, v => [(k, v)]
  | (k', v') :: rest, k, v =>
    if k' = k then (k, v) :: rest else (k', v') :: insertAssoc rest k v

theorem lookupAssoc_insertAssoc {α : Type} (l : List (String × α)) (k : String) (v : α)
    (j : String) :
    lookupAssoc (insertAssoc l k v) j = if k = j then some v else lookupAssoc l j := by
  induction l with
  | nil =>
    by_cases h : k = j <;> simp [insertAssoc, lookupAssoc, h]
  | cons e rest ih =>
    obtain ⟨k', v'⟩ := e
    by_cases h1 : k' = k
    · subst h1
      by_cases h2 : k' = j <;> simp [insertAssoc, lookupAssoc, h2]
    · by_cases h2 : k' = j
      · subst h2
        have : ¬ k = k' := fun h => h1 h.symm
        simp [insertAssoc, lookupAssoc, h1, this]
      · simp [insertAssoc, lookupAssoc, h1, h2, ih]

/-! ## models (src/unnamed/part_013, part_014) -/

namespace Models

/-- Status string constants of the models package. -/
def StatusActive : String := "active"

/-- Go models.Customer (current revision): identity record for a purchaser.
Timestamps are Unix nanoseconds as Int. -/
structure Customer where
  ID : String
  Email : String
  Name : String
  Country : String
  StripeCustomerID : String
  CreatedAt : Int
  UpdatedAt : Int
  deriving DecidableEq, Repr

/-- Go models.License.  The fields through UpdatedAt are those of
src/unnamed/part_013; ProductName, PricePaid and Currency are referenced by
src/handlers/stripe.go but their declaration is not among the captured model
files, so they are modelled from the spec's data model (product display name,
price paid + currency, informational). -/
structure License where
  ID : String
  Key : String
  Version : String
  Status : String
  CustomerID : String
  ProductID : String
  ProductName : String
  PricePaid : Int
  Currency : String
  StripeSessionID : String
  CreatedAt : Int
  UpdatedAt : Int
  deriving DecidableEq, Repr

end Models

/-! ## storage (src/unnamed/part_010) -/

namespace Storage

open Models

/-- Go storage.MemoryStorage: customers keyed by ID, licenses keyed by ID. -/
structure MemoryStorage where
  Data : List (String × Customer)
  Licenses : List (String × License)
  deriving DecidableEq, Repr

/-- Go MemoryStorage.GetCustomer: nil (none) for absence, never an error. -/
def MemoryStorage.GetCustomer (m : MemoryStorage) (id : String) : Option Customer :=
  lookupAssoc m.Data id

/-- Go MemoryStorage.FindCustomerByEmailAddress: first customer in map
iteration order whose email matches; none when absent. -/
def MemoryStorage.FindCustomerByEmailAddress (m : MemoryStorage) (emailAddress : String) :
    Option Customer :=
  (m.Data.map Prod.snd).find? fun customer => customer.Email = emailAddress

/-- Go MemoryStorage.SaveCustomer: upsert keyed by the customer's ID; never
fails. -/
def MemoryStorage.SaveCustomer (m : MemoryStorage) (customer : Customer) : MemoryStorage :=
  { m with Data := insertAssoc m.Data customer.ID customer }

/-- Go MemoryStorage.FindLicenseByKey. -/
def MemoryStorage.FindLicenseByKey (m : MemoryStorage) (key : String) : Option License :=
  (m.Licenses.map Prod.snd).find? fun license => license.Key = key

/-- Go MemoryStorage.SaveLicense: referential check that the owning customer
exists, then upsert keyed by license ID.  No uniqueness check on the key. -/
def MemoryStorage.SaveLicense (m : MemoryStorage) (license : License) :
    Except String MemoryStorage :=
  match lookupAssoc m.Data license.CustomerID with
  | none => .error ("customer " ++ license.CustomerID ++ " not found")
  | some _ => .ok { m with Licenses := insertAssoc m.Licenses license.ID license }

/-- Go storage.FileStorage: same in-memory maps as MemoryStorage (writes are
never persisted back to the file — the known gap noted in the repository). -/
structure FileStorage where
  filepath : String
  customers : List (String × Customer)
  licenses : List (String × License)
  deriving DecidableEq, Repr

/-- Go FileStorage.SaveLicense: identical application-level referential check
and ID-keyed upsert. -/
def FileStorage.SaveLicense (f : FileStorage) (license : License) :
    Except String FileStorage :=
  match lookupAssoc f.customers license.CustomerID with
  | none => .error ("customer " ++ license.CustomerID ++ " not found")
  | some _ => .ok { f with licenses := insertAssoc f.licenses license.ID license }

/-- Go storage.SQLiteStorage, as the state of its SQLite database after
migrate: the two tables, plus the connection's foreign_keys pragma.  SQLite
enforces declared FOREIGN KEY constraints only when that per-connection
pragma is on. -/
structure SQLiteStorage where
  foreignKeysEnabled : Bool
  customers : List Customer
  licenses : List License
  deriving DecidableEq, Repr

/-- Connection state produced by Go storage.NewSQLiteStorage: sql.Open with a
plain file path — the DSN carries no _foreign_keys option and the code never
issues PRAGMA foreign_keys, so the connection keeps SQLite's default of
foreign-key enforcement disabled; migrate creates the two (empty) tables with
key TEXT UNIQUE and the declared FOREIGN KEY. -/
def NewSQLiteStorage : SQLiteStorage := ⟨false, [], []⟩

/-- Go SQLiteStorage.SaveLicense: INSERT OR REPLACE INTO licenses — any row
conflicting on the primary key (id) or the UNIQUE key column is replaced; the
declared FOREIGN KEY (customer_id) is checked only when the connection's
foreign_keys pragma is enabled.  The Go error wrapper text is the (copy-paste)
"failed to save customer: %w" of the source. -/
def SQLiteStorage.SaveLicense (s : SQLiteStorage) (license : License) :
    Except String SQLiteStorage :=
  if s.foreignKeysEnabled ∧ ¬ s.customers.any (fun c => c.ID = license.CustomerID) then
    .error "failed to save customer: FOREIGN KEY constraint failed"
  else
    .ok { s with licenses :=
      license :: s.licenses.filter fun r => ¬ (r.ID = license.ID ∨ r.Key = license.Key) }

/-- Concrete license whose CustomerID resolves to no stored customer. -/
def danglingLicense : License :=
  { ID := "l1", Key := "AFP-TEST123", Version := "1.0.0", Status := "active",
    CustomerID := "nonexistent", ProductID := "p1", ProductName := "v1",
    PricePaid := 999, Currency := "usd", StripeSessionID := "cs_1",
    CreatedAt := 0, UpdatedAt := 0 }

/-- C2 (divergence exhibit): on a license whose customer does not exist, the
Memory and File backends return the descriptive referential error and record
nothing, but the SQLite backend — whose connection never enables the
foreign_keys pragma — accepts the insert and stores the dangling row. -/
theorem saveLicense_referential_divergence :
    MemoryStorage.SaveLicense ⟨[], []⟩ danglingLicense =
      .error "customer nonexistent not found" ∧
    FileStorage.SaveLicense ⟨"storage/data/customers.json", [], []⟩ danglingLicense =
      .error "customer nonexistent not found" ∧
    SQLiteStorage.SaveLicense NewSQLiteStorage danglingLicense =
      .ok ⟨false, [], [danglingLicense]⟩ := ⟨rfl, rfl, rfl⟩

/-- Concrete customer and two licenses with distinct IDs and the same key. -/
def custC5 : Customer :=
  { ID := "c1", Email := "c1@example.com", Name := "", Country := "",
    StripeCustomerID := "", CreatedAt := 0, UpdatedAt := 0 }

def licC5a : License :=
  { ID := "l1", Key := "AFP-DUP", Version := "1.0.0", Status := "active",
    CustomerID := "c1", ProductID := "p1", ProductName := "v1",
    PricePaid := 999, Currency := "usd", StripeSessionID := "cs_1",
    CreatedAt := 0, UpdatedAt := 0 }

def licC5b : License := { licC5a with ID := "l2" }

def licC5new : License := { licC5a with ID := "l9", Key := "AFP-OTHER" }

/-- C5 (counterexample): the Memory backend accepts two SaveLicense calls
storing licenses with distinct IDs and the same key, so key uniqueness is not
an invariant preserved by every backend. -/
theorem memory_saveLicense_duplicate_key :
    ∃ m : MemoryStorage,
      (MemoryStorage.SaveLicense ⟨[("c1", custC5)], []⟩ licC5a).bind
          (fun m1 => m1.SaveLicense licC5b) = .ok m ∧
      lookupAssoc m.Licenses "l1" = some licC5a ∧
      lookupAssoc m.Licenses "l2" = some licC5b ∧
      licC5a.ID ≠ licC5b.ID ∧
      licC5a.Key = licC5b.Key := by
  refine ⟨⟨[("c1", custC5)], [("l1", licC5a), ("l2", licC5b)]⟩, rfl, rfl, rfl, ?_, rfl⟩
  decide

/-- C5 (amended): the SQLite backend does preserve key uniqueness: its key
column is UNIQUE and INSERT OR REPLACE evicts any row conflicting on id or
key, so a successful SaveLicense keeps the keys pairwise distinct. -/
theorem sqlite_saveLicense_preserves_key_nodup (s : SQLiteStorage) (l : License)
    (h : (s.licenses.map License.Key).Nodup) (s' : SQLiteStorage)
    (hok : SQLiteStorage.SaveLicense s l = .ok s') :
    (s'.licenses.map License.Key).Nodup := by
  unfold SQLiteStorage.SaveLicense at hok
  by_cases hc : s.foreignKeysEnabled ∧ ¬ s.customers.any (fun c => c.ID = l.CustomerID)
  · rw [if_pos hc] at hok
    cases hok
  · rw [if_neg hc] at hok
    cases hok
    simp only [List.map_cons, List.nodup_cons]
    constructor
    · intro hmem
      simp only [List.mem_map, List.mem_filter] at hmem
      obtain ⟨r, ⟨_, hrcond⟩, hrkey⟩ := hmem
      simp only [decide_not, Bool.not_eq_eq_eq_not, Bool.not_true, decide_eq_false_iff_not] at hrcond
      exact hrcond (Or.inr hrkey)
    · exact List.Nodup.sublist (List.Sublist.map _ (List.filter_sublist _)) h

/-- Witness for the amended C5 theorem: inserting a fresh-keyed license into a
one-license SQLite table keeps the keys pairwise distinct. -/
theorem sqlite_saveLicense_preserves_key_nodup_witness :
    ((⟨false, [], [licC5new, licC5a]⟩ : SQLiteStorage).licenses.map License.Key).Nodup :=
  sqlite_saveLicense_preserves_key_nodup ⟨false, [], [licC5a]⟩ licC5new (by decide)
    ⟨false, [], [licC5new, licC5a]⟩ rfl

end Storage

/-! ## crypto/sha256, crypto/hmac, encoding/base64 (Go standard library, as
used by the validation handler's response signing)

Bytes are Nat < 256, 32-bit words are Nat < 2^32 with explicit mod.  The
SHA-256 round constants and initial state are derived, as in FIPS 180-4, from
the fractional parts of the square and cube roots of the first primes, so no
constant is transcribed by hand. -/

namespace Crypto

def pow32 : Nat := 2 ^ 32

/-- Right rotation of a 32-bit word. -/
def rotr32 (n x : Nat) : Nat := ((x >>> n) ||| (x <<< (32 - n))) % pow32

/-- Trial-division primality test, adequate for the first 64 primes. -/
def isPrimeTrial (n : Nat) : Bool :=
  decide (2 ≤ n) && (List.range n).all fun d => decide (d < 2) || decide (n % d ≠ 0)

def primesUpTo (n : Nat) : List Nat := (List.range (n + 1)).filter isPrimeTrial

/-- Binary search for the integer cube root. -/
def natCbrtAux : Nat → Nat → Nat → Nat → Nat
  | 0, _, lo, _ => lo
  | fuel + 1, n, lo, hi =>
    if hi ≤ lo + 1 then lo
    else
      let mid := (lo + hi) / 2
      if mid ^ 3 ≤ n then natCbrtAux fuel n mid hi else natCbrtAux fuel n lo mid

def natCbrt (n : Nat) : Nat := natCbrtAux 200 n 0 (n + 1)

/-- First 32 bits of the fractional part of the square root of a prime. -/
def fracSqrtBits (p : Nat) : Nat := Nat.sqrt (p * 2 ^ 64) % pow32

/-- First 32 bits of the fractional part of the cube root of a prime. -/
def fracCbrtBits (p : Nat) : Nat := natCbrt (p * 2 ^ 96) % pow32

/-- SHA-256 initial hash value: fractional square roots of the first 8
primes. -/
def H256 : List Nat := ((primesUpTo 311).take 8).map fracSqrtBits

/-- SHA-256 round constants: fractional cube roots of the first 64 primes
(311 is the 64th prime). -/
def K256 : List Nat := (primesUpTo 311).map fracCbrtBits

structure ShaState where
  a : Nat
  b : Nat
  c : Nat
  d : Nat
  e : Nat
  f : Nat
  g : Nat
  h : Nat
  deriving DecidableEq, Repr

def sha256Init : ShaState :=
  ⟨H256.getD 0 0, H256.getD 1 0, H256.getD 2 0, H256.getD 3 0,
   H256.getD 4 0, H256.getD 5 0, H256.getD 6 0, H256.getD 7 0⟩

/-- One compression round, taking the pair (round constant, schedule word). -/
def shaRound (st : ShaState) (kw : Nat × Nat) : ShaState :=
  let bigS1 := (rotr32 6 st.e) ^^^ (rotr32 11 st.e) ^^^ (rotr32 25 st.e)
  let ch := (st.e &&& st.f) ^^^ ((st.e ^^^ (pow32 - 1)) &&& st.g)
  let temp1 := (st.h + bigS1 + ch + kw.1 + kw.2) % pow32
  let bigS0 := (rotr32 2 st.a) ^^^ (rotr32 13 st.a) ^^^ (rotr32 22 st.a)
  let maj := (st.a &&& st.b) ^^^ (st.a &&& st.c) ^^^ (st.b &&& st.c)
  let temp2 := (bigS0 + maj) % pow32
  ⟨(temp1 + temp2) % pow32, st.a, st.b, st.c, (st.d + temp1) % pow32, st.e, st.f, st.g⟩

def smallSigma0 (x : Nat) : Nat := (rotr32 7 x) ^^^ (rotr32 18 x) ^^^ (x >>> 3)

def smallSigma1 (x : Nat) : Nat := (rotr32 17 x) ^^^ (rotr32 19 x) ^^^ (x >>> 10)

/-- Extend the 16 block words to the 64-entry message schedule. -/
def extendSchedule (w : List Nat) : List Nat :=
  (List.range 48).foldl
    (fun acc _ =>
      let n := acc.length
      acc ++ [(acc.getD (n - 16) 0 + smallSigma0 (acc.getD (n - 15) 0) +
               acc.getD (n - 7) 0 + smallSigma1 (acc.getD (n - 2) 0)) % pow32])
    w

/-- Big-endian bytes to 32-bit words. -/
def bytesToWords : List Nat → List Nat
  | b0 :: b1 :: b2 :: b3 :: rest =>
    (((b0 * 256 + b1) * 256 + b2) * 256 + b3) :: bytesToWords rest
  | _ => []

def wordToBytes (x : Nat) : List Nat :=
  [(x >>> 24) % 256, (x >>> 16) % 256, (x >>> 8) % 256, x % 256]

/-- Chop a word list into 16-word blocks (fuel-based structural recursion;
the fuel l.length suffices since every step consumes at least one element). -/
def toBlocksAux : Nat → List Nat → List (List Nat)
  | 0, _ => []
  | _, [] => []
  | fuel + 1, l => l.take 16 :: toBlocksAux fuel (l.drop 16)

def toBlocks (l : List Nat) : List (List Nat) := toBlocksAux l.length l

/-- FIPS padding: append 0x80, zeros to 56 mod 64, then the bit length as 8
big-endian bytes. -/
def padMessage (msg : List Nat) : List Nat :=
  let len := msg.length
  let zeros := (119 - len % 64) % 64
  msg ++ [128] ++ List.replicate zeros 0 ++
    (List.range 8).map fun i => ((len * 8) >>> (8 * (7 - i))) % 256

def processBlock (hs : ShaState) (block : List Nat) : ShaState :=
  let st := (K256.zip (extendSchedule block)).foldl shaRound hs
  ⟨(hs.a + st.a) % pow32, (hs.b + st.b) % pow32, (hs.c + st.c) % pow32,
   (hs.d + st.d) % pow32, (hs.e + st.e) % pow32, (hs.f + st.f) % pow32,
   (hs.g + st.g) % pow32, (hs.h + st.h) % pow32⟩

/-- SHA-256 of a byte list. -/
def sha256 (msg : List Nat) : List Nat :=
  let final := (toBlocks (bytesToWords (padMessage msg))).foldl processBlock sha256Init
  wordToBytes final.a ++ wordToBytes final.b ++ wordToBytes final.c ++
    wordToBytes final.d ++ wordToBytes final.e ++ wordToBytes final.f ++
    wordToBytes final.g ++ wordToBytes final.h

/-- HMAC-SHA256 (RFC 2104 with a 64-byte block): hash an over-long key, pad
with zeros, inner pad 0x36, outer pad 0x5c. -/
def hmacSha256 (key msg : List Nat) : List Nat :=
  let k0 := if 64 < key.length then sha256 key else key
  let kp := k0 ++ List.replicate (64 - k0.length) 0
  sha256 ((kp.map fun b => b ^^^ 92) ++ sha256 ((kp.map fun b => b ^^^ 54) ++ msg))

/-- Standard base64 alphabet. -/
def base64Chars : List Char :=
  "ABCDEFGHIJKLMNOPQRSTUVWXYZabcdefghijklmnopqrstuvwxyz0123456789+/".data

def b64c (i : Nat) : Char := base64Chars.getD i 'A'

def base64Chunks : List Nat → List Char
  | b0 :: b1 :: b2 :: rest =>
    let n := b0 * 65536 + b1 * 256 + b2
    b64c (n >>> 18) :: b64c ((n >>> 12) % 64) :: b64c ((n >>> 6) % 64) :: b64c (n % 64) ::
      base64Chunks rest
  | [b0, b1] =>
    let n := b0 * 65536 + b1 * 256
    [b64c (n >>> 18), b64c ((n >>> 12) % 64), b64c ((n >>> 6) % 64), '=']
  | [b0] =>
    let n := b0 * 65536
    [b64c (n >>> 18), b64c ((n >>> 12) % 64), '=', '=']
  | [] => []

/-- Go base64.StdEncoding.EncodeToString. -/
def base64Encode (bytes : List Nat) : String := String.mk (base64Chunks bytes)

/-- UTF-8 encoding of one character (Go strings are UTF-8 byte slices). -/
def utf8Bytes (c : Char) : List Nat :=
  let n := c.toNat
  if n < 128 then [n]
  else if n < 2048 then [192 ||| (n >>> 6), 128 ||| (n &&& 63)]
  else if n < 65536 then
    [224 ||| (n >>> 12), 128 ||| ((n >>> 6) &&& 63), 128 ||| (n &&& 63)]
  else
    [240 ||| (n >>> 18), 128 ||| ((n >>> 12) &&& 63), 128 ||| ((n >>> 6) &&& 63),
     128 ||| (n &&& 63)]

/-- Byte slice of a Go string. -/
def strToBytes (s : String) : List Nat := (s.data.map utf8Bytes).flatten

end Crypto

/-! ## Response signing of the current validation handler
(src/unnamed/part_008, respondWithValidation / generateHMACSignature) -/

namespace Handlers

/-- One structured log event (level and message). -/
structure LogEntry where
  level : String
  message : String
  deriving DecidableEq, Repr

/-- Wire shape of a validation verdict: valid flag, message, Unix-seconds
timestamp and base64 HMAC signature. -/
structure ValidateResponse where
  Valid : Bool
  Message : String
  Timestamp : Int
  Signature : String
  deriving DecidableEq, Repr

/-- Fallback secret compiled into the handler for use when HMAC_SECRET is
unset. -/
def defaultHmacSecret : String := "auto-focus-hmac-secret-2025"

/-- Go fmt's %t rendering of a bool. -/
def goBoolFormat (b : Bool) : String := if b then "true" else "false"

/-- Payload string fmt.Sprintf("%t|%s|%d", valid, message, timestamp). -/
def validationPayload (valid : Bool) (message : String) (timestamp : Int) : String :=
  goBoolFormat valid ++ "|" ++ message ++ "|" ++ toString timestamp

/-- Go generateHMACSignature: read HMAC_SECRET from the environment (the
empty string models an unset variable, as os.Getenv returns); fall back to
the default secret with a logged warning; MAC the payload and base64 it.
Returns the signature together with the emitted log events — the function
itself cannot fail. -/
def generateHMACSignature (hmacSecretEnv : String) (valid : Bool) (message : String)
    (timestamp : Int) : String × List LogEntry :=
  let secretAndLogs :=
    if hmacSecretEnv = "" then
      (defaultHmacSecret, [(⟨"WARN", "Using default HMAC secret"⟩ : LogEntry)])
    else (hmacSecretEnv, [])
  (Crypto.base64Encode (Crypto.hmacSha256 (Crypto.strToBytes secretAndLogs.1)
      (Crypto.strToBytes (validationPayload valid message timestamp))),
   secretAndLogs.2)

/-- Go respondWithValidation: stamp the verdict with the current Unix time
and attach the HMAC signature over (valid, message, timestamp). -/
def respondWithValidation (hmacSecretEnv : String) (now : Int) (valid : Bool)
    (message : String) : ValidateResponse × List LogEntry :=
  let sig := generateHMACSignature hmacSecretEnv valid message now
  ({ Valid := valid, Message := message, Timestamp := now, Signature := sig.1 }, sig.2)

/-- C4: every verdict, positive or negative, is returned with a signature
that is the keyed MAC (HMAC-SHA256, base64) over exactly the tuple
(valid flag, message, response timestamp); signing is total, and an empty
operational secret falls back to the fixed default secret with a logged
warning — never an error. -/
theorem verdict_signed_over_tuple (env : String) (now : Int) (valid : Bool)
    (message : String) :
    (respondWithValidation env now valid message).1 =
      { Valid := valid, Message := message, Timestamp := now,
        Signature := Crypto.base64Encode (Crypto.hmacSha256
          (Crypto.strToBytes (if env = "" then defaultHmacSecret else env))
          (Crypto.strToBytes (validationPayload valid message now))) } ∧
    ((respondWithValidation env now valid message).2 =
        [(⟨"WARN", "Using default HMAC secret"⟩ : LogEntry)] ↔ env = "") := by
  unfold respondWithValidation generateHMACSignature
  by_cases h : env = "" <;> simp [h]

/-! ## Stripe checkout provisioning (src/handlers/stripe.go)

The handler is generic over the Storage interface; it is embedded here
against the Memory backend, whose reads never return an error (the generic
error-propagation branches are dead for this backend).  The effects —
UUID generation, the clock, and the SMTP send — are passed in explicitly as
a ProvisionEnv. -/

/-- Relevant fields of stripe.CheckoutSession.CustomerDetails. -/
structure CustomerDetails where
  Email : String
  Name : String
  AddressCountry : Option String
  deriving DecidableEq, Repr

/-- Relevant fields of the stripe.Customer object attached to a session. -/
structure StripeCustomerRef where
  ID : String
  deriving DecidableEq, Repr

/-- Relevant fields of stripe.CheckoutSession. -/
structure CheckoutSession where
  ID : String
  CustomerEmail : String
  CustomerDetails : Option CustomerDetails
  Customer : Option StripeCustomerRef
  AmountTotal : Int
  Currency : String
  Metadata : List (String × String)
  deriving DecidableEq, Repr

/-- Go map indexing on session metadata: missing keys read as "". -/
def metaGet (m : List (String × String)) (k : String) : String :=
  (lookupAssoc m k).getD ""

instance exceptDecEq {α β : Type} [DecidableEq α] [DecidableEq β] :
    DecidableEq (Except α β) := fun x y =>
  match x, y with
  | .error a, .error b =>
    if h : a = b then isTrue (by rw [h]) else isFalse (by intro hx; cases hx; exact h rfl)
  | .error _, .ok _ => isFalse (by intro hx; cases hx)
  | .ok _, .error _ => isFalse (by intro hx; cases hx)
  | .ok a, .ok b =>
    if h : a = b then isTrue (by rw [h]) else isFalse (by intro hx; cases hx; exact h rfl)

/-- Effect inputs of one provisioning run: the two generated UUIDs, the UUID
consumed by the key generator, the clock, and the outcome of the SMTP
send. -/
structure ProvisionEnv where
  newCustomerUUID : String
  newLicenseUUID : String
  newKeyUUID : String
  now : Int
  emailResult : Except String Unit
  deriving DecidableEq, Repr

/-- Email extraction at the top of handleCheckoutComplete: CustomerDetails
when present, else the session's CustomerEmail. -/
def sessionEmail (session : CheckoutSession) : String :=
  match session.CustomerDetails with
  | some d => d.Email
  | none => session.CustomerEmail

/-- Go handlers.createCustomer. -/
def createCustomer (env : ProvisionEnv) (session : CheckoutSession)
    (customerEmail : String) : Models.Customer :=
  let stripeCustomerID :=
    match session.Customer with
    | some c => c.ID
    | none => ""
  let customerName :=
    match session.CustomerDetails with
    | some d => d.Name
    | none => ""
  let country :=
    match session.CustomerDetails with
    | some d =>
      match d.AddressCountry with
      | some country => country
      | none => ""
    | none => ""
  { ID := env.newCustomerUUID, Email := customerEmail, Name := customerName,
    Country := country, StripeCustomerID := stripeCustomerID,
    CreatedAt := env.now, UpdatedAt := env.now }

/-- Go handlers.generateLicenseKey: "AFP-" plus the first 8 characters of a
fresh UUID. -/
def generateLicenseKey (env : ProvisionEnv) : String :=
  "AFP-" ++ env.newKeyUUID.take 8

/-- Go handlers.createLicese (source spelling kept): a brand-new license for
every call — fresh ID, fresh key, status active, fields from the session. -/
def createLicese (env : ProvisionEnv) (customer : Models.Customer)
    (session : CheckoutSession) : Models.License :=
  let productName :=
    if metaGet session.Metadata "product_name" = "" then "v1"
    else metaGet session.Metadata "product_name"
  { ID := env.newLicenseUUID,
    Key := generateLicenseKey env,
    CustomerID := customer.ID,
    ProductID := metaGet session.Metadata "product_id",
    ProductName := productName,
    PricePaid := session.AmountTotal,
    Currency := session.Currency,
    Version := metaGet session.Metadata "license_version",
    Status := Models.StatusActive,
    StripeSessionID := session.ID,
    CreatedAt := env.now, UpdatedAt := env.now }

/-- Go handlers.findOrCreateCustomer over the Memory backend: look up by
email; on a hit return the stored customer unchanged, otherwise create and
save a new one. -/
def findOrCreateCustomer (st : Storage.MemoryStorage) (env : ProvisionEnv)
    (session : CheckoutSession) (customerEmail : String) :
    Models.Customer × Storage.MemoryStorage :=
  match st.FindCustomerByEmailAddress customerEmail with
  | some customer => (customer, st)
  | none =>
    let customer := createCustomer env session customerEmail
    (customer, st.SaveCustomer customer)

/-- Go handlers.createLicensedUser: resolve the customer, generate the
license, persist it (SaveLicense's referential error is wrapped). -/
def createLicensedUser (st : Storage.MemoryStorage) (env : ProvisionEnv)
    (session : CheckoutSession) (customerEmail : String) :
    Except String (Models.Customer × Models.License × Storage.MemoryStorage) :=
  let fc := findOrCreateCustomer st env session customerEmail
  let license := createLicese env fc.1 session
  match fc.2.SaveLicense license with
  | .error e => .error ("failed to save license: " ++ e)
  | .ok st' => .ok (fc.1, license, st')

/-- Go handlers.handleCheckoutComplete: provision, then send the license
email; an email failure is logged and swallowed — the function still returns
success with the license already persisted. -/
def handleCheckoutComplete (st : Storage.MemoryStorage) (env : ProvisionEnv)
    (session : CheckoutSession) :
    Except String (Storage.MemoryStorage × List LogEntry) :=
  let customerEmail := sessionEmail session
  match createLicensedUser st env session customerEmail with
  | .error e => .error e
  | .ok (_, _, st') =>
    match env.emailResult with
    | .error e => .ok (st', [⟨"ERROR", "Failed to send license email: " ++ e⟩])
    | .ok _ => .ok (st', [⟨"INFO", "License email sent successfully"⟩])

/-- Concrete pair of same-email customers; the list order below models the
(unspecified) Go map iteration order that visits the later-created one
first. -/
def custEarly : Models.Customer :=
  { ID := "c1", Email := "dup@example.com", Name := "", Country := "",
    StripeCustomerID := "", CreatedAt := 0, UpdatedAt := 0 }

def custLate : Models.Customer := { custEarly with ID := "c2", CreatedAt := 5, UpdatedAt := 5 }

/-- Concrete checkout session and effect environments for witnesses. -/
def sampleSession : CheckoutSession :=
  { ID := "cs_test_1", CustomerEmail := "new@example.com", CustomerDetails := none,
    Customer := none, AmountTotal := 999, Currency := "usd",
    Metadata := [("product_id", "p1"), ("license_version", "1.0.0")] }

def sampleEnv1 : ProvisionEnv :=
  { newCustomerUUID := "uuid-cust-1", newLicenseUUID := "uuid-lic-1",
    newKeyUUID := "11111111-aaaa", now := 100, emailResult := .ok () }

def sampleEnv2 : ProvisionEnv :=
  { newCustomerUUID := "uuid-cust-2", newLicenseUUID := "uuid-lic-2",
    newKeyUUID := "22222222-bbbb", now := 200, emailResult := .ok () }

def sampleEnvFail : ProvisionEnv := { sampleEnv1 with emailResult := .error "smtp down" }

theorem lookupAssoc_isSome_of_mem {α : Type} (l : List (String × α)) (k : String)
    (h : ∃ p ∈ l, p.1 = k) : (lookupAssoc l k).isSome := by
  induction l with
  | nil => simp at h
  | cons e rest ih =>
    obtain ⟨k', v⟩ := e
    obtain ⟨p, hp, hk⟩ := h
    by_cases he : k' = k
    · simp [lookupAssoc, he]
    · simp only [lookupAssoc, if_neg he]
      rcases List.mem_cons.mp hp with rfl | hmem
      · exact absurd hk he
      · exact ih ⟨p, hmem, hk⟩

/-- C8 (counterexample): with two distinct stored customers sharing an email,
FindCustomerByEmailAddress returns the first match in map iteration order —
here the later-created one — not the earlier-created one. -/
theorem findCustomerByEmail_not_earlier_created :
    Storage.MemoryStorage.FindCustomerByEmailAddress
        ⟨[("c2", custLate), ("c1", custEarly)], []⟩ "dup@example.com" = some custLate ∧
    custLate ≠ custEarly ∧
    custEarly.Email = "dup@example.com" ∧
    ("c1", custEarly) ∈ ([("c2", custLate), ("c1", custEarly)] :
        List (String × Models.Customer)) ∧
    custEarly.CreatedAt < custLate.CreatedAt := by
  exact ⟨rfl, by decide, rfl, by decide, by decide⟩

/-- C8 (amended): the lookup used by provisioning returns some stored
customer carrying the searched email (the first in the backend's unspecified
iteration order), and when a customer with that email exists,
findOrCreateCustomer returns it and leaves the store unchanged — no duplicate
Customer is created. -/
theorem findOrCreateCustomer_existing (st : Storage.MemoryStorage) (env : ProvisionEnv)
    (session : CheckoutSession) (email : String) (c : Models.Customer)
    (hfound : st.FindCustomerByEmailAddress email = some c) :
    findOrCreateCustomer st env session email = (c, st) ∧
    c.Email = email ∧
    c ∈ st.Data.map Prod.snd := by
  refine ⟨by simp [findOrCreateCustomer, hfound], ?_, ?_⟩
  · have hf : (st.Data.map Prod.snd).find? (fun cu => cu.Email = email) = some c := hfound
    have := List.find?_some hf
    simpa using this
  · exact List.mem_of_find?_eq_some
      (show (st.Data.map Prod.snd).find? (fun cu => cu.Email = email) = some c from hfound)

/-- Witness for amended C8 at the concrete duplicate-email store. -/
theorem findOrCreateCustomer_existing_witness :
    findOrCreateCustomer ⟨[("c2", custLate), ("c1", custEarly)], []⟩ sampleEnv1
        sampleSession "dup@example.com" =
      (custLate, ⟨[("c2", custLate), ("c1", custEarly)], []⟩) ∧
    custLate.Email = "dup@example.com" :=
  ⟨(findOrCreateCustomer_existing ⟨[("c2", custLate), ("c1", custEarly)], []⟩
      sampleEnv1 sampleSession "dup@example.com" custLate rfl).1,
   (findOrCreateCustomer_existing ⟨[("c2", custLate), ("c1", custEarly)], []⟩
      sampleEnv1 sampleSession "dup@example.com" custLate rfl).2.1⟩

/-- C9: when the SMTP send fails after the license has been created and
persisted, handleCheckoutComplete still returns success: the failure is
logged (ERROR entry) and swallowed, and the saved license remains stored in
the returned state.  The hypothesis is that the store keys its customers by
their ID, which every SaveCustomer write maintains. -/
theorem emailFailure_swallowed (st : Storage.MemoryStorage) (env : ProvisionEnv)
    (session : CheckoutSession) (e : String)
    (hwf : ∀ p ∈ st.Data, p.1 = p.2.ID)
    (hfail : env.emailResult = .error e) :
    ∃ (customer : Models.Customer) (st' : Storage.MemoryStorage),
      createLicensedUser st env session (sessionEmail session) =
        .ok (customer, createLicese env customer session, st') ∧
      handleCheckoutComplete st env session =
        .ok (st', [⟨"ERROR", "Failed to send license email: " ++ e⟩]) ∧
      lookupAssoc st'.Licenses (createLicese env customer session).ID =
        some (createLicese env customer session) := by
  cases hf : st.FindCustomerByEmailAddress (sessionEmail session) with
  | some c =>
    have hmem : c ∈ st.Data.map Prod.snd :=
      List.mem_of_find?_eq_some
        (show (st.Data.map Prod.snd).find? (fun cu => cu.Email = sessionEmail session)
            = some c from hf)
    obtain ⟨p, hp, hpc⟩ := List.mem_map.mp hmem
    have hkey : (lookupAssoc st.Data c.ID).isSome :=
      lookupAssoc_isSome_of_mem _ _ ⟨p, hp, by rw [hwf p hp, hpc]⟩
    obtain ⟨v, hv⟩ := Option.isSome_iff_exists.mp hkey
    have hclu : createLicensedUser st env session (sessionEmail session) =
        .ok (c, createLicese env c session,
          (⟨st.Data, insertAssoc st.Licenses
              (createLicese env c session).ID (createLicese env c session)⟩ :
            Storage.MemoryStorage)) := by
      unfold createLicensedUser findOrCreateCustomer
      rw [hf]
      dsimp only [Storage.MemoryStorage.SaveLicense]
      rw [show (createLicese env c session).CustomerID = c.ID from rfl, hv]
    refine ⟨c, _, hclu, ?_, ?_⟩
    · unfold handleCheckoutComplete
      dsimp only
      rw [hclu]
      dsimp only
      rw [hfail]
    · rw [lookupAssoc_insertAssoc, if_pos rfl]
  | none =>
    have hclu : createLicensedUser st env session (sessionEmail session) =
        .ok (createCustomer env session (sessionEmail session),
          createLicese env (createCustomer env session (sessionEmail session)) session,
          (⟨insertAssoc st.Data
              (createCustomer env session (sessionEmail session)).ID
              (createCustomer env session (sessionEmail session)),
            insertAssoc st.Licenses
              (createLicese env (createCustomer env session (sessionEmail session))
                session).ID
              (createLicese env (createCustomer env session (sessionEmail session))
                session)⟩ : Storage.MemoryStorage)) := by
      unfold createLicensedUser findOrCreateCustomer
      rw [hf]
      dsimp only [Storage.MemoryStorage.SaveCustomer, Storage.MemoryStorage.SaveLicense]
      rw [show (createLicese env (createCustomer env session (sessionEmail session))
            session).CustomerID
          = (createCustomer env session (sessionEmail session)).ID from rfl]
      rw [lookupAssoc_insertAssoc, if_pos rfl]
    refine ⟨createCustomer env session (sessionEmail session), _, hclu, ?_, ?_⟩
    · unfold handleCheckoutComplete
      dsimp only
      rw [hclu]
      dsimp only
      rw [hfail]
    · rw [lookupAssoc_insertAssoc, if_pos rfl]

/-- Witness for C9: from an empty store, with a failing SMTP collaborator,
provisioning still succeeds and the license is stored. -/
theorem emailFailure_swallowed_witness :
    ∃ (customer : Models.Customer) (st' : Storage.MemoryStorage),
      createLicensedUser ⟨[], []⟩ sampleEnvFail sampleSession (sessionEmail sampleSession) =
        .ok (customer, createLicese sampleEnvFail customer sampleSession, st') ∧
      handleCheckoutComplete ⟨[], []⟩ sampleEnvFail sampleSession =
        .ok (st', [⟨"ERROR", "Failed to send license email: " ++ "smtp down"⟩]) ∧
      lookupAssoc st'.Licenses (createLicese sampleEnvFail customer sampleSession).ID =
        some (createLicese sampleEnvFail customer sampleSession) :=
  emailFailure_swallowed ⟨[], []⟩ sampleEnvFail sampleSession "smtp down"
    (by intro p hp; simp at hp) rfl

/-- Helper: a successful createLicensedUser makes handleCheckoutComplete
succeed with the same final state, whatever the email outcome. -/
theorem handleCheckoutComplete_ok (st st' : Storage.MemoryStorage) (env : ProvisionEnv)
    (session : CheckoutSession) (customer : Models.Customer) (license : Models.License)
    (hclu : createLicensedUser st env session (sessionEmail session) =
      .ok (customer, license, st')) :
    ∃ logs, handleCheckoutComplete st env session = .ok (st', logs) := by
  unfold handleCheckoutComplete
  dsimp only
  rw [hclu]
  cases henv : env.emailResult with
  | error e => exact ⟨_, rfl⟩
  | ok u => exact ⟨_, rfl⟩

/-- C3: delivering the same purchase-completed event twice (same purchaser
email, same session id): the first run creates the customer and one license;
the second run finds the existing customer — no second Customer record — but
creates and persists a second license with a fresh ID and key (same
StripeSessionID) instead of returning the existing one. -/
theorem redelivery_creates_duplicate_license (session : CheckoutSession)
    (env1 env2 : ProvisionEnv)
    (hid : env2.newLicenseUUID ≠ env1.newLicenseUUID)
    (hkey : generateLicenseKey env2 ≠ generateLicenseKey env1) :
    ∃ (customer : Models.Customer) (st1 st2 : Storage.MemoryStorage)
      (logs1 logs2 : List LogEntry),
      handleCheckoutComplete ⟨[], []⟩ env1 session = .ok (st1, logs1) ∧
      st1.Data = [(customer.ID, customer)] ∧
      st1.Licenses = [((createLicese env1 customer session).ID,
        createLicese env1 customer session)] ∧
      handleCheckoutComplete st1 env2 session = .ok (st2, logs2) ∧
      st2.Data = st1.Data ∧
      st2.Licenses = [((createLicese env1 customer session).ID,
          createLicese env1 customer session),
        ((createLicese env2 customer session).ID, createLicese env2 customer session)] ∧
      (createLicese env2 customer session).StripeSessionID =
        (createLicese env1 customer session).StripeSessionID ∧
      (createLicese env2 customer session).ID ≠ (createLicese env1 customer session).ID ∧
      (createLicese env2 customer session).Key ≠ (createLicese env1 customer session).Key := by
  have hclu1 : createLicensedUser ⟨[], []⟩ env1 session (sessionEmail session) =
      .ok (createCustomer env1 session (sessionEmail session),
        createLicese env1 (createCustomer env1 session (sessionEmail session)) session,
        (⟨[((createCustomer env1 session (sessionEmail session)).ID,
            createCustomer env1 session (sessionEmail session))],
          [((createLicese env1 (createCustomer env1 session (sessionEmail session))
              session).ID,
            createLicese env1 (createCustomer env1 session (sessionEmail session))
              session)]⟩ : Storage.MemoryStorage)) := by
    unfold createLicensedUser findOrCreateCustomer
    dsimp only [Storage.MemoryStorage.FindCustomerByEmailAddress,
      Storage.MemoryStorage.SaveCustomer, Storage.MemoryStorage.SaveLicense]
    simp [insertAssoc, lookupAssoc, List.find?, createLicese]
  obtain ⟨logs1, h1⟩ := handleCheckoutComplete_ok _ _ env1 session _ _ hclu1
  have hf2 : (⟨[((createCustomer env1 session (sessionEmail session)).ID,
        createCustomer env1 session (sessionEmail session))],
      [((createLicese env1 (createCustomer env1 session (sessionEmail session))
          session).ID,
        createLicese env1 (createCustomer env1 session (sessionEmail session))
          session)]⟩ : Storage.MemoryStorage).FindCustomerByEmailAddress
        (sessionEmail session) =
      some (createCustomer env1 session (sessionEmail session)) := by
    dsimp only [Storage.MemoryStorage.FindCustomerByEmailAddress]
    simp [List.find?, createCustomer]
  have hclu2 : createLicensedUser
      (⟨[((createCustomer env1 session (sessionEmail session)).ID,
          createCustomer env1 session (sessionEmail session))],
        [((createLicese env1 (createCustomer env1 session (sessionEmail session))
            session).ID,
          createLicese env1 (createCustomer env1 session (sessionEmail session))
            session)]⟩ : Storage.MemoryStorage) env2 session (sessionEmail session) =
      .ok (createCustomer env1 session (sessionEmail session),
        createLicese env2 (createCustomer env1 session (sessionEmail session)) session,
        (⟨[((createCustomer env1 session (sessionEmail session)).ID,
            createCustomer env1 session (sessionEmail session))],
          [((createLicese env1 (createCustomer env1 session (sessionEmail session))
              session).ID,
            createLicese env1 (createCustomer env1 session (sessionEmail session))
              session),
           ((createLicese env2 (createCustomer env1 session (sessionEmail session))
              session).ID,
            createLicese env2 (createCustomer env1 session (sessionEmail session))
              session)]⟩ : Storage.MemoryStorage)) := by
    unfold createLicensedUser findOrCreateCustomer
    rw [hf2]
    dsimp only [Storage.MemoryStorage.SaveLicense]
    simp [insertAssoc, lookupAssoc, createLicese, Ne.symm hid]
  obtain ⟨logs2, h2⟩ := handleCheckoutComplete_ok _ _ env2 session _ _ hclu2
  exact ⟨createCustomer env1 session (sessionEmail session), _, _, logs1, logs2,
    h1, rfl, rfl, h2, rfl, rfl, rfl, hid, hkey⟩

/-- Witness for C3 at a concrete session and two concrete effect
environments with distinct generated UUIDs. -/
theorem redelivery_creates_duplicate_license_witness :
    ∃ (customer : Models.Customer) (st1 st2 : Storage.MemoryStorage)
      (logs1 logs2 : List LogEntry),
      handleCheckoutComplete ⟨[], []⟩ sampleEnv1 sampleSession = .ok (st1, logs1) ∧
      st1.Data = [(customer.ID, customer)] ∧
      st1.Licenses = [((createLicese sampleEnv1 customer sampleSession).ID,
        createLicese sampleEnv1 customer sampleSession)] ∧
      handleCheckoutComplete st1 sampleEnv2 sampleSession = .ok (st2, logs2) ∧
      st2.Data = st1.Data ∧
      st2.Licenses = [((createLicese sampleEnv1 customer sampleSession).ID,
          createLicese sampleEnv1 customer sampleSession),
        ((createLicese sampleEnv2 customer sampleSession).ID,
          createLicese sampleEnv2 customer sampleSession)] ∧
      (createLicese sampleEnv2 customer sampleSession).StripeSessionID =
        (createLicese sampleEnv1 customer sampleSession).StripeSessionID ∧
      (createLicese sampleEnv2 customer sampleSession).ID ≠
        (createLicese sampleEnv1 customer sampleSession).ID ∧
      (createLicese sampleEnv2 customer sampleSession).Key ≠
        (createLicese sampleEnv1 customer sampleSession).Key :=
  redelivery_creates_duplicate_license sampleSession sampleEnv1 sampleEnv2
    (by decide) (by decide)

end Handlers

end AutoFocus

